import Mathlib

/-!
Shallow embedding of the xbps transaction engine from
`src/bin/xbps-bin/install.c`: the integrity gate (`check_pkg_hashes`),
the summary reporter (`show_transaction_sizes`), the two-phase
apply/configure driver (`exec_transaction`), and the targeted
install/update orchestrator (`xbps_install_pkg`).  External collaborator
calls (hash verification, package removal, unpacking, registration,
state persistence, configuration, prompting, size formatting) are
modelled as oracles bundled in an `Env`; every call the engine issues is
recorded in an `Action` trace so ordering and fail-fast properties can
be stated.
-/

namespace Xbps

/-- errno constant used by the source (`EINVAL`). -/
def EINVAL : Int := 22

/-- errno constant used by the source (`EAGAIN`). -/
def EAGAIN : Int := 11

/-- errno constant used by the source (`ENOENT`). -/
def ENOENT : Int := 2

/-- One element of the transaction package array: the dictionary keys read
by `exec_transaction`, `check_pkg_hashes` and `show_transaction_sizes`
(`pkgname`, `version`, `essential`, `filename`, `filename-size`,
`installed_size`) plus the package state; `unpacked = true` models
`XBPS_PKG_STATE_UNPACKED`. -/
structure PkgEntry where
  pkgname : String
  version : String
  essential : Bool
  filename : String
  filename_size : Nat
  installed_size : Nat
  unpacked : Bool
  deriving DecidableEq

/-- Result of the external `xbps_check_pkg_file_hash` call: `ok` is a zero
return, `mismatch` is `ERANGE`, `ioError` is any other nonzero errno. -/
inductive HashResult
  | ok
  | mismatch
  | ioError
  deriving DecidableEq

/-- Oracles giving the outcome of each external collaborator call made by
the engine; return values are the C `int` results (0 = success). -/
structure Env where
  hash : PkgEntry → HashResult
  removeRv : PkgEntry → Int
  unpackRv : PkgEntry → Int
  registerRv : PkgEntry → Int
  setStateRv : PkgEntry → Int
  configureRv : PkgEntry → Int
  findInstalledVersion : String → Option String
  humanizeOk : Nat → Bool
  confirm : Bool

/-- Transaction type tag from the source `enum`. -/
inductive TransType
  | TRANS_ONE
  | TRANS_ALL
  deriving DecidableEq

/-- The `struct transaction`: its package iterator is modelled as the list
of entries; `curpkgname` is `Option String` because the field is left as
the calloc NULL in `xbps_install_pkg`. -/
structure Transaction where
  entries : List PkgEntry
  originpkgname : String
  curpkgname : Option String
  ttype : TransType
  force : Bool
  update : Bool

/-- Observable calls the engine issues, in program order. -/
inductive Action
  | showSizes
  | prompt (answer : Bool)
  | hashCheck (pkgname : String)
  | removePkg (pkgname version : String) (keep_config : Bool)
  | unpackPkg (pkgname : String) (essential : Bool)
  | registerPkg (pkgname : String) (is_dependency : Bool)
  | setUnpacked (pkgname : String)
  | configurePkg (pkgname version : String)
  deriving DecidableEq

/-- `check_pkg_hashes`: walk the entries in order, skip those already in
state UNPACKED, ask the hash oracle for the rest; the first failing check
returns -1 at once (ERANGE mismatch and other errors both map to -1). -/
def check_pkg_hashes (env : Env) : List PkgEntry → Int × List Action
  | [] => (0, [])
  | e :: rest =>
    if e.unpacked = true then check_pkg_hashes env rest
    else
      match env.hash e with
      | HashResult.ok =>
        ((check_pkg_hashes env rest).1,
          Action.hashCheck e.pkgname :: (check_pkg_hashes env rest).2)
      | HashResult.mismatch => (-1, [Action.hashCheck e.pkgname])
      | HashResult.ioError => (-1, [Action.hashCheck e.pkgname])

/-- First summary pass: accumulate `filename-size` and `installed_size`
into the two `uint64_t` totals (wrapping modulo 2^64 as the C types do). -/
def sumSizes (es : List PkgEntry) : Nat × Nat :=
  es.foldl
    (fun acc e =>
      ((acc.1 + e.filename_size) % 2 ^ 64, (acc.2 + e.installed_size) % 2 ^ 64))
    (0, 0)

/-- State of the second summary pass: current column count, the `first`
flag, the line being built and the finished lines. -/
structure RenderState where
  cols : Nat
  first : Bool
  cur : String
  lines : List String
  deriving DecidableEq

/-- One step of the word-wrapped listing: add the token width, continue
the line while the count stays within 80 columns, otherwise start a new
indented line and reset the count. -/
def renderStep (st : RenderState) (e : PkgEntry) : RenderState :=
  let n := e.pkgname.length + e.version.length + 4
  if st.cols + n ≤ 80 then
    { cols := st.cols + n
      first := true
      cur :=
        (if st.first = false then st.cur ++ "  " else st.cur) ++
          e.pkgname ++ "-" ++ e.version ++ " "
      lines := st.lines }
  else
    { cols := n
      first := st.first
      cur := "  " ++ e.pkgname ++ "-" ++ e.version ++ " "
      lines := st.lines ++ [st.cur] }

/-- Second summary pass: render each entry as `name-version`, wrapped. -/
def renderListing (es : List PkgEntry) : List String :=
  let st := es.foldl renderStep ⟨0, false, "", []⟩
  st.lines ++ [st.cur]

/-- `show_transaction_sizes`: compute both totals, render the listing,
then format each total with `xbps_humanize_number`; a formatter failure
returns -1.  Result is (return value, download total, installed total). -/
def show_transaction_sizes (env : Env) (es : List PkgEntry) : Int × Nat × Nat :=
  let s := sumSizes es
  let _lines := renderListing es
  if env.humanizeOk s.1 = false then (-1, s.1, s.2)
  else if env.humanizeOk s.2 = false then (-1, s.1, s.2)
  else (0, s.1, s.2)

/-- Outcome of processing a single not-yet-unpacked entry in the apply
loop: return value, the (possibly state-updated) entry, the calls issued
for it, and the `isdep` flag after the entry. -/
structure EntryOut where
  rv : Int
  entry : PkgEntry
  trace : List Action
  isdep : Bool
  deriving DecidableEq

/-- The unpack → register → set-state tail of the apply loop body:
`xbps_unpack_binary_pkg(obj, essential)`, then
`xbps_register_pkg(obj, isdep)` after which `isdep` is cleared, then
`xbps_set_pkg_state_dictionary(obj, XBPS_PKG_STATE_UNPACKED)`; the first
nonzero return aborts with that value. -/
def applyEntryTail (env : Env) (e : PkgEntry) (isdep : Bool) : EntryOut :=
  if env.unpackRv e ≠ 0 then
    ⟨env.unpackRv e, e, [Action.unpackPkg e.pkgname e.essential], isdep⟩
  else if env.registerRv e ≠ 0 then
    ⟨env.registerRv e, e,
      [Action.unpackPkg e.pkgname e.essential,
        Action.registerPkg e.pkgname isdep], isdep⟩
  else if env.setStateRv e ≠ 0 then
    ⟨env.setStateRv e, e,
      [Action.unpackPkg e.pkgname e.essential,
        Action.registerPkg e.pkgname isdep,
        Action.setUnpacked e.pkgname], false⟩
  else
    ⟨0, { e with unpacked := true },
      [Action.unpackPkg e.pkgname e.essential,
        Action.registerPkg e.pkgname isdep,
        Action.setUnpacked e.pkgname], false⟩

/-- Apply-loop body for a not-yet-unpacked entry: when the entry applies
in this pass (`TRANS_ALL`, or an update of the package currently being
processed) the installed dictionary is looked up (failure is `EINVAL`),
and a non-essential package is first removed with
`xbps_remove_pkg(pkgname, version, true)`; then the common tail runs. -/
def applyEntry (env : Env) (t : Transaction) (e : PkgEntry) (isdep : Bool) :
    EntryOut :=
  if t.ttype = TransType.TRANS_ALL ∨
      (t.update = true ∧ t.curpkgname = some e.pkgname) then
    match env.findInstalledVersion e.pkgname with
    | none => ⟨EINVAL, e, [], isdep⟩
    | some _instver =>
      if e.essential = false then
        if env.removeRv e ≠ 0 then
          ⟨env.removeRv e, e,
            [Action.removePkg e.pkgname e.version true], isdep⟩
        else
          ⟨(applyEntryTail env e isdep).rv, (applyEntryTail env e isdep).entry,
            Action.removePkg e.pkgname e.version true ::
              (applyEntryTail env e isdep).trace,
            (applyEntryTail env e isdep).isdep⟩
      else applyEntryTail env e isdep
  else applyEntryTail env e isdep

/-- Result of the apply loop: return value, the entry list with updated
states, the calls issued, and the final `isdep` flag. -/
structure ApplyOut where
  rv : Int
  entries : List PkgEntry
  trace : List Action
  isdep : Bool
  deriving DecidableEq

/-- The `isdep` update at the top of the apply-loop body: in `TRANS_ONE`
mode, a pkgname differing from `originpkgname` sets the flag. -/
def stepIsdep (t : Transaction) (e : PkgEntry) (isdep : Bool) : Bool :=
  if t.ttype = TransType.TRANS_ONE ∧ t.originpkgname ≠ e.pkgname then true
  else isdep

/-- The first while loop of `exec_transaction`: for each entry, in
`TRANS_ONE` mode a name differing from `originpkgname` sets `isdep`;
an entry already UNPACKED is skipped; otherwise the entry is applied and
a nonzero return stops the loop with the remaining entries untouched. -/
def applyLoop (env : Env) (t : Transaction) (isdep : Bool) :
    List PkgEntry → ApplyOut
  | [] => ⟨0, [], [], isdep⟩
  | e :: rest =>
    if e.unpacked = true then
      ⟨(applyLoop env t (stepIsdep t e isdep) rest).rv,
        e :: (applyLoop env t (stepIsdep t e isdep) rest).entries,
        (applyLoop env t (stepIsdep t e isdep) rest).trace,
        (applyLoop env t (stepIsdep t e isdep) rest).isdep⟩
    else
      if (applyEntry env t e (stepIsdep t e isdep)).rv ≠ 0 then
        ⟨(applyEntry env t e (stepIsdep t e isdep)).rv,
          (applyEntry env t e (stepIsdep t e isdep)).entry :: rest,
          (applyEntry env t e (stepIsdep t e isdep)).trace,
          (applyEntry env t e (stepIsdep t e isdep)).isdep⟩
      else
        ⟨(applyLoop env t (applyEntry env t e (stepIsdep t e isdep)).isdep
            rest).rv,
          (applyEntry env t e (stepIsdep t e isdep)).entry ::
            (applyLoop env t (applyEntry env t e (stepIsdep t e isdep)).isdep
              rest).entries,
          (applyEntry env t e (stepIsdep t e isdep)).trace ++
            (applyLoop env t (applyEntry env t e (stepIsdep t e isdep)).isdep
              rest).trace,
          (applyLoop env t (applyEntry env t e (stepIsdep t e isdep)).isdep
            rest).isdep⟩

/-- The second while loop of `exec_transaction`: configure every entry in
order via `xbps_configure_pkg(pkgname, version)`; the first nonzero
return stops the loop. -/
def configureLoop (env : Env) : List PkgEntry → Int × List Action
  | [] => (0, [])
  | e :: rest =>
    if env.configureRv e ≠ 0 then
      (env.configureRv e, [Action.configurePkg e.pkgname e.version])
    else
      ((configureLoop env rest).1,
        Action.configurePkg e.pkgname e.version :: (configureLoop env rest).2)

/-- Result of `exec_transaction`: return value, the entry list with its
final states, and the trace of calls issued. -/
structure ExecOut where
  rv : Int
  entries : List PkgEntry
  trace : List Action
  deriving DecidableEq

/-- The interactive-confirmation part of the trace when the transaction
proceeds: a `prompt true` when `force` is unset, nothing otherwise. -/
def promptTrace (t : Transaction) : List Action :=
  if t.force = false then [Action.prompt true] else []

/-- `exec_transaction`: show the sizes summary (a nonzero return aborts),
ask `xbps_noyes` unless `force` (a declined prompt returns 0), run
`check_pkg_hashes` (nonzero aborts), run the apply loop with `isdep`
initialised to false (nonzero aborts), then the configure loop. -/
def exec_transaction (env : Env) (t : Transaction) : ExecOut :=
  if (show_transaction_sizes env t.entries).1 ≠ 0 then
    ⟨(show_transaction_sizes env t.entries).1, t.entries, [Action.showSizes]⟩
  else if t.force = false ∧ env.confirm = false then
    ⟨0, t.entries, [Action.showSizes, Action.prompt false]⟩
  else if (check_pkg_hashes env t.entries).1 ≠ 0 then
    ⟨(check_pkg_hashes env t.entries).1, t.entries,
      Action.showSizes :: promptTrace t ++ (check_pkg_hashes env t.entries).2⟩
  else if (applyLoop env t false t.entries).rv ≠ 0 then
    ⟨(applyLoop env t false t.entries).rv,
      (applyLoop env t false t.entries).entries,
      Action.showSizes :: promptTrace t ++
        (check_pkg_hashes env t.entries).2 ++
        (applyLoop env t false t.entries).trace⟩
  else
    ⟨(configureLoop env (applyLoop env t false t.entries).entries).1,
      (applyLoop env t false t.entries).entries,
      Action.showSizes :: promptTrace t ++
        (check_pkg_hashes env t.entries).2 ++
        (applyLoop env t false t.entries).trace ++
        (configureLoop env (applyLoop env t false t.entries).entries).2⟩

/-- `cleanup(rv)` exits with `EXIT_SUCCESS` exactly when `rv == 0`;
0 models `EXIT_SUCCESS` and 1 models `EXIT_FAILURE`. -/
def cleanup_status (rv : Int) : Nat := if rv = 0 then 0 else 1

/-- The transaction dictionary returned by `xbps_get_pkg_props`:
missing dependencies, the `origin` package name, and the sorted
package array. -/
structure PkgProps where
  missing_deps : List String
  origin : String
  packages : List PkgEntry

/-- Oracles for the orchestrator `xbps_install_pkg`: the installed
package lookup, the results of `xbps_find_new_pkg` and
`xbps_prepare_pkg`, the props dictionary, and the engine oracles. -/
structure OrchEnv where
  tenv : Env
  installedVersion : String → Option String
  find_new_pkg_rv : Int
  prepare_pkg_rv : Int
  pkg_props : Option PkgProps

/-- Outcome of a whole `xbps_install_pkg` invocation: the process exit
status produced by `cleanup` and the trace of engine calls issued. -/
structure OrchOut where
  exit_status : Nat
  trace : List Action
  deriving DecidableEq

/-- Common tail of `xbps_install_pkg` once the early checks pass: bail
out (keeping the current `rv`) when the props dictionary is missing or
reports missing dependencies, otherwise build the `TRANS_ONE`
transaction (with `curpkgname` left NULL) and run `exec_transaction`. -/
def install_run_transaction (oe : OrchEnv) (force update : Bool) (rv : Int) :
    OrchOut :=
  match oe.pkg_props with
  | none => ⟨cleanup_status rv, []⟩
  | some props =>
    if props.missing_deps ≠ [] then ⟨cleanup_status rv, []⟩
    else
      ⟨cleanup_status
        (exec_transaction oe.tenv
          ⟨props.packages, props.origin, none, TransType.TRANS_ONE,
            force, update⟩).rv,
        (exec_transaction oe.tenv
          ⟨props.packages, props.origin, none, TransType.TRANS_ONE,
            force, update⟩).trace⟩

/-- `xbps_install_pkg`: in the update flow an installed package is first
version-checked (`xbps_find_new_pkg` returning 0 means up to date, a
benign no-op) and a missing installation prints a message and calls
`cleanup` with the still-zero `rv`; in the install flow an existing
installation is a benign no-op and otherwise `xbps_prepare_pkg` runs,
with `EAGAIN` (not found in any repository) and any other nonzero value
except `ENOENT` aborting. -/
def xbps_install_pkg (oe : OrchEnv) (pkg : String) (force update : Bool) :
    OrchOut :=
  if update = true then
    match oe.installedVersion pkg with
    | some _ =>
      if oe.find_new_pkg_rv = 0 then ⟨cleanup_status 0, []⟩
      else install_run_transaction oe force update oe.find_new_pkg_rv
    | none => ⟨cleanup_status 0, []⟩
  else
    match oe.installedVersion pkg with
    | some _ => ⟨cleanup_status 0, []⟩
    | none =>
      if oe.prepare_pkg_rv ≠ 0 ∧ oe.prepare_pkg_rv = EAGAIN then
        ⟨cleanup_status oe.prepare_pkg_rv, []⟩
      else if oe.prepare_pkg_rv ≠ 0 ∧ oe.prepare_pkg_rv ≠ ENOENT then
        ⟨cleanup_status oe.prepare_pkg_rv, []⟩
      else install_run_transaction oe force update oe.prepare_pkg_rv

/-!
Phase numbering of the actual control flow of `exec_transaction`:
summary (0), prompt (1), hash checks (2), apply-phase mutations (3),
configuration (4).
-/

/-- Phase index of an action in the order `exec_transaction` runs them. -/
def phase : Action → Nat
  | Action.showSizes => 0
  | Action.prompt _ => 1
  | Action.hashCheck _ => 2
  | Action.removePkg _ _ _ => 3
  | Action.unpackPkg _ _ => 3
  | Action.registerPkg _ _ => 3
  | Action.setUnpacked _ => 3
  | Action.configurePkg _ _ => 4

/-- Phase index in the order the specification claims the phases run:
hash checks first, then summary, then prompt, then apply, then
configure. -/
def claimedPhase : Action → Nat
  | Action.hashCheck _ => 0
  | Action.showSizes => 1
  | Action.prompt _ => 2
  | Action.removePkg _ _ _ => 3
  | Action.unpackPkg _ _ => 3
  | Action.registerPkg _ _ => 3
  | Action.setUnpacked _ => 3
  | Action.configurePkg _ _ => 4

/-- `removePkg`, `unpackPkg`, `registerPkg` and `setUnpacked` are the
calls that mutate installed state. -/
def isMutation : Action → Bool
  | Action.removePkg _ _ _ => true
  | Action.unpackPkg _ _ => true
  | Action.registerPkg _ _ => true
  | Action.setUnpacked _ => true
  | _ => false

theorem check_pkg_hashes_trace_phase (env : Env) :
    ∀ es : List PkgEntry, ∀ a ∈ (check_pkg_hashes env es).2, phase a = 2 := by
  intro es
  induction es with
  | nil => intro a ha; simp [check_pkg_hashes] at ha
  | cons e rest ih =>
    intro a ha
    by_cases hu : e.unpacked = true
    · rw [check_pkg_hashes, if_pos hu] at ha
      exact ih a ha
    · rw [check_pkg_hashes, if_neg hu] at ha
      cases hh : env.hash e <;> rw [hh] at ha <;> simp at ha
      · rcases ha with rfl | ha
        · rfl
        · exact ih a ha
      · rw [ha]; rfl
      · rw [ha]; rfl

theorem applyEntryTail_trace_phase (env : Env) (e : PkgEntry) (isdep : Bool) :
    ∀ a ∈ (applyEntryTail env e isdep).trace, phase a = 3 := by
  intro a ha
  unfold applyEntryTail at ha
  split at ha
  · simp at ha; rw [ha]; rfl
  · split at ha
    · simp at ha; rcases ha with rfl | rfl <;> rfl
    · split at ha <;> simp at ha <;> rcases ha with rfl | rfl | rfl <;> rfl

theorem applyEntry_trace_phase (env : Env) (t : Transaction) (e : PkgEntry)
    (isdep : Bool) : ∀ a ∈ (applyEntry env t e isdep).trace, phase a = 3 := by
  intro a ha
  unfold applyEntry at ha
  split at ha
  · split at ha
    · simp at ha
    · split at ha
      · split at ha
        · simp at ha; rw [ha]; rfl
        · rcases List.mem_cons.1 ha with rfl | ha
          · rfl
          · exact applyEntryTail_trace_phase env e isdep a ha
      · exact applyEntryTail_trace_phase env e isdep a ha
  · exact applyEntryTail_trace_phase env e isdep a ha

theorem applyLoop_trace_phase (env : Env) (t : Transaction) :
    ∀ (es : List PkgEntry) (isdep : Bool),
      ∀ a ∈ (applyLoop env t isdep es).trace, phase a = 3 := by
  intro es
  induction es with
  | nil => intro isdep a ha; simp [applyLoop] at ha
  | cons e rest ih =>
    intro isdep a ha
    rw [applyLoop] at ha
    by_cases hu : e.unpacked = true
    · rw [if_pos hu] at ha
      exact ih _ a ha
    · rw [if_neg hu] at ha
      split at ha
      · exact applyEntry_trace_phase env t e _ a ha
      · rcases List.mem_append.1 ha with ha | ha
        · exact applyEntry_trace_phase env t e _ a ha
        · exact ih _ a ha

theorem configureLoop_trace_phase (env : Env) :
    ∀ es : List PkgEntry, ∀ a ∈ (configureLoop env es).2, phase a = 4 := by
  intro es
  induction es with
  | nil => intro a ha; simp [configureLoop] at ha
  | cons e rest ih =>
    intro a ha
    rw [configureLoop] at ha
    split at ha <;> simp at ha
    · rw [ha]; rfl
    · rcases ha with rfl | ha
      · rfl
      · exact ih a ha

theorem pairwise_phase_of_const {l : List Action} {k : Nat}
    (h : ∀ a ∈ l, phase a = k) :
    l.Pairwise (fun a b => phase a ≤ phase b) := by
  induction l with
  | nil => exact List.Pairwise.nil
  | cons a rest ih =>
    refine List.Pairwise.cons ?_ (ih fun b hb => h b (List.mem_cons_of_mem a hb))
    intro b hb
    rw [h a (List.mem_cons_self a rest), h b (List.mem_cons_of_mem a hb)]

theorem promptTrace_phase (t : Transaction) :
    ∀ a ∈ promptTrace t, phase a = 1 := by
  intro a ha
  unfold promptTrace at ha
  split at ha <;> simp at ha
  rw [ha]; rfl

theorem pairwise_phase_append {l1 l2 : List Action} {k : Nat}
    (h1 : List.Pairwise (fun a b => phase a ≤ phase b) l1)
    (h2 : List.Pairwise (fun a b => phase a ≤ phase b) l2)
    (b1 : ∀ a ∈ l1, phase a ≤ k) (b2 : ∀ a ∈ l2, k ≤ phase a) :
    List.Pairwise (fun a b => phase a ≤ phase b) (l1 ++ l2) :=
  List.pairwise_append.2
    ⟨h1, h2, fun a ha b hb => le_trans (b1 a ha) (b2 b hb)⟩

/-- All-success one-entry environment used as a concrete input. -/
def envAllOk : Env :=
  ⟨fun _ => HashResult.ok, fun _ => 0, fun _ => 0, fun _ => 0, fun _ => 0,
    fun _ => 0, fun _ => some "0.9", fun _ => true, true⟩

/-- A fresh, not-yet-unpacked, non-essential entry. -/
def entA : PkgEntry := ⟨"a", "1.0", false, "a.xbps", 10, 20, false⟩

/-- A forced single-origin install of `entA` alone. -/
def transA : Transaction :=
  ⟨[entA], "a", none, TransType.TRANS_ONE, true, false⟩

/-- Claim C1, as stated in the specification, is false on the code: in
the run of `exec_transaction` on a forced one-entry transaction the
summary is rendered before any hash is verified, so the trace is not
ordered by the claimed phase numbering (integrity gate first, then
summary, then prompt, then apply, then configure). -/
theorem C1_counterexample :
    ¬ List.Pairwise (fun a b => claimedPhase a ≤ claimedPhase b)
      (exec_transaction envAllOk transA).trace := by decide

/-- Claim C1 (amended): for every transaction executed, the phases run
in the order Summary Reporter first, then interactive confirmation
(skipped when force is true), then Integrity Gate, then Apply Phase
Driver, then Configure Phase Driver: the trace of `exec_transaction` is
always sorted by the actual phase numbering, so in particular every
hash verification happens after the summary is rendered and after the
user is prompted, and no mutation precedes them. -/
theorem C1_exec_phase_order (env : Env) (t : Transaction) :
    List.Pairwise (fun a b => phase a ≤ phase b)
      (exec_transaction env t).trace := by
  have h12 : List.Pairwise (fun a b => phase a ≤ phase b)
      (promptTrace t ++ (check_pkg_hashes env t.entries).2) :=
    pairwise_phase_append (k := 2)
      (pairwise_phase_of_const (promptTrace_phase t))
      (pairwise_phase_of_const (check_pkg_hashes_trace_phase env t.entries))
      (fun a ha => by rw [promptTrace_phase t a ha]; omega)
      (fun a ha => (check_pkg_hashes_trace_phase env t.entries a ha).ge)
  have h123 : List.Pairwise (fun a b => phase a ≤ phase b)
      ((promptTrace t ++ (check_pkg_hashes env t.entries).2) ++
        (applyLoop env t false t.entries).trace) :=
    pairwise_phase_append (k := 3) h12
      (pairwise_phase_of_const (applyLoop_trace_phase env t t.entries false))
      (by
        intro a ha
        rcases List.mem_append.1 ha with h | h
        · rw [promptTrace_phase t a h]; omega
        · rw [check_pkg_hashes_trace_phase env t.entries a h]; omega)
      (fun a ha => (applyLoop_trace_phase env t t.entries false a ha).ge)
  have h1234 : List.Pairwise (fun a b => phase a ≤ phase b)
      (((promptTrace t ++ (check_pkg_hashes env t.entries).2) ++
        (applyLoop env t false t.entries).trace) ++
        (configureLoop env (applyLoop env t false t.entries).entries).2) :=
    pairwise_phase_append (k := 4) h123
      (pairwise_phase_of_const
        (configureLoop_trace_phase env
          (applyLoop env t false t.entries).entries))
      (by
        intro a ha
        rcases List.mem_append.1 ha with h | h
        · rcases List.mem_append.1 h with h2 | h2
          · rw [promptTrace_phase t a h2]; omega
          · rw [check_pkg_hashes_trace_phase env t.entries a h2]; omega
        · rw [applyLoop_trace_phase env t t.entries false a h]; omega)
      (fun a ha =>
        (configureLoop_trace_phase env
          (applyLoop env t false t.entries).entries a ha).ge)
  unfold exec_transaction
  split
  · exact List.pairwise_singleton _ _
  · split
    · exact List.Pairwise.cons (fun b hb => Nat.zero_le _)
        (List.pairwise_singleton _ _)
    · split
      · exact List.Pairwise.cons (fun b hb => Nat.zero_le _) h12
      · split
        · exact List.Pairwise.cons (fun b hb => Nat.zero_le _) h123
        · exact List.Pairwise.cons (fun b hb => Nat.zero_le _) h1234

theorem sumSizes_foldl (es : List PkgEntry) :
    ∀ d i : Nat, d < 2 ^ 64 → i < 2 ^ 64 →
      es.foldl
        (fun acc e =>
          ((acc.1 + e.filename_size) % 2 ^ 64,
            (acc.2 + e.installed_size) % 2 ^ 64)) (d, i) =
        ((d + (es.map (fun e => e.filename_size)).sum) % 2 ^ 64,
          (i + (es.map (fun e => e.installed_size)).sum) % 2 ^ 64) := by
  induction es with
  | nil =>
    intro d i hd hi
    simp only [List.foldl_nil, List.map_nil, List.sum_nil, Nat.add_zero]
    rw [Nat.mod_eq_of_lt hd, Nat.mod_eq_of_lt hi]
  | cons e rest ih =>
    intro d i hd hi
    simp only [List.foldl_cons, List.map_cons, List.sum_cons]
    rw [ih _ _ (Nat.mod_lt _ (by norm_num)) (Nat.mod_lt _ (by norm_num))]
    rw [Nat.mod_add_mod, Nat.mod_add_mod, Nat.add_assoc, Nat.add_assoc]

theorem sumSizes_eq (es : List PkgEntry) :
    sumSizes es =
      ((es.map (fun e => e.filename_size)).sum % 2 ^ 64,
        (es.map (fun e => e.installed_size)).sum % 2 ^ 64) := by
  unfold sumSizes
  rw [sumSizes_foldl es 0 0 (by norm_num) (by norm_num)]
  simp

theorem show_transaction_sizes_totals (env : Env) (es : List PkgEntry) :
    (show_transaction_sizes env es).2 = sumSizes es := by
  simp only [show_transaction_sizes]
  split
  · rfl
  · split <;> rfl

/-- Claim C8: the Summary Reporter totals are the sums of the per-entry
size fields (exact whenever the mathematical sum fits the `uint64_t`
accumulator), and the totals depend only on the size fields of the
entries, not on the names and versions that drive the word-wrapped
listing. -/
theorem C8_summary_totals (env : Env) (es : List PkgEntry) :
    ((es.map (fun e => e.filename_size)).sum < 2 ^ 64 →
      (show_transaction_sizes env es).2.1 =
        (es.map (fun e => e.filename_size)).sum) ∧
    ((es.map (fun e => e.installed_size)).sum < 2 ^ 64 →
      (show_transaction_sizes env es).2.2 =
        (es.map (fun e => e.installed_size)).sum) ∧
    (∀ es2 : List PkgEntry,
      es2.map (fun e => (e.filename_size, e.installed_size)) =
        es.map (fun e => (e.filename_size, e.installed_size)) →
      sumSizes es2 = sumSizes es) := by
  refine ⟨?_, ?_, ?_⟩
  · intro hlt
    rw [show (show_transaction_sizes env es).2.1 = (sumSizes es).1 from
        congrArg Prod.fst (show_transaction_sizes_totals env es),
      sumSizes_eq]
    exact Nat.mod_eq_of_lt hlt
  · intro hlt
    rw [show (show_transaction_sizes env es).2.2 = (sumSizes es).2 from
        congrArg Prod.snd (show_transaction_sizes_totals env es),
      sumSizes_eq]
    exact Nat.mod_eq_of_lt hlt
  · intro es2 h
    have h1 : es2.map (fun e => e.filename_size) =
        es.map (fun e => e.filename_size) := by
      have h2 := congrArg (List.map Prod.fst) h
      simpa [List.map_map, Function.comp] using h2
    have h2 : es2.map (fun e => e.installed_size) =
        es.map (fun e => e.installed_size) := by
      have h3 := congrArg (List.map Prod.snd) h
      simpa [List.map_map, Function.comp] using h3
    rw [sumSizes_eq, sumSizes_eq, h1, h2]

/-- Witness for C8 at a concrete entry list. -/
theorem C8_summary_totals_witness :
    (show_transaction_sizes envAllOk [entA]).2.1 =
      ([entA].map (fun e => e.filename_size)).sum ∧
    (show_transaction_sizes envAllOk [entA]).2.2 =
      ([entA].map (fun e => e.installed_size)).sum :=
  ⟨(C8_summary_totals envAllOk [entA]).1 (by decide),
    (C8_summary_totals envAllOk [entA]).2.1 (by decide)⟩

theorem applyEntryTail_entry (env : Env) (e : PkgEntry) (isdep : Bool) :
    (applyEntryTail env e isdep).entry = e ∨
    (applyEntryTail env e isdep).entry = { e with unpacked := true } := by
  unfold applyEntryTail
  split
  · exact Or.inl rfl
  · split
    · exact Or.inl rfl
    · split
      · exact Or.inl rfl
      · exact Or.inr rfl

theorem applyEntry_entry (env : Env) (t : Transaction) (e : PkgEntry)
    (isdep : Bool) :
    (applyEntry env t e isdep).entry = e ∨
    (applyEntry env t e isdep).entry = { e with unpacked := true } := by
  unfold applyEntry
  split
  · split
    · exact Or.inl rfl
    · split
      · split
        · exact Or.inl rfl
        · exact applyEntryTail_entry env e isdep
      · exact applyEntryTail_entry env e isdep
  · exact applyEntryTail_entry env e isdep

theorem applyLoop_entries_nv (env : Env) (t : Transaction) :
    ∀ (es : List PkgEntry) (isdep : Bool),
      (applyLoop env t isdep es).entries.map
          (fun e => (e.pkgname, e.version)) =
        es.map (fun e => (e.pkgname, e.version)) := by
  intro es
  induction es with
  | nil => intro isdep; rfl
  | cons e rest ih =>
    intro isdep
    rw [applyLoop]
    by_cases hu : e.unpacked = true
    · rw [if_pos hu]
      show (e :: (applyLoop env t (stepIsdep t e isdep) rest).entries).map _ =
        (e :: rest).map _
      rw [List.map_cons, List.map_cons, ih]
    · rw [if_neg hu]
      split
      · show ((applyEntry env t e (stepIsdep t e isdep)).entry :: rest).map _ =
          (e :: rest).map _
        rw [List.map_cons, List.map_cons]
        rcases applyEntry_entry env t e (stepIsdep t e isdep) with h | h <;>
          rw [h]
      · show ((applyEntry env t e (stepIsdep t e isdep)).entry ::
            (applyLoop env t (applyEntry env t e (stepIsdep t e isdep)).isdep
              rest).entries).map _ = (e :: rest).map _
        rw [List.map_cons, List.map_cons, ih]
        rcases applyEntry_entry env t e (stepIsdep t e isdep) with h | h <;>
          rw [h]

theorem configureLoop_all_ok (env : Env) :
    ∀ es : List PkgEntry, (∀ e ∈ es, env.configureRv e = 0) →
      configureLoop env es =
        (0, es.map (fun e => Action.configurePkg e.pkgname e.version)) := by
  intro es
  induction es with
  | nil => intro h; rfl
  | cons e rest ih =>
    intro h
    rw [configureLoop, if_neg (not_ne_iff.2 (h e (List.mem_cons_self e rest))),
      ih (fun x hx => h x (List.mem_cons_of_mem e hx))]
    rfl

theorem configureLoop_first_fail (env : Env) :
    ∀ (es : List PkgEntry) (k : Nat) (hk : k < es.length),
      (∀ i (hi : i < k), env.configureRv (es.get ⟨i, lt_trans hi hk⟩) = 0) →
      env.configureRv (es.get ⟨k, hk⟩) ≠ 0 →
      configureLoop env es =
        (env.configureRv (es.get ⟨k, hk⟩),
          (es.take (k + 1)).map
            (fun e => Action.configurePkg e.pkgname e.version)) := by
  intro es
  induction es with
  | nil => intro k hk; simp at hk
  | cons e rest ih =>
    intro k hk hok hfail
    cases k with
    | zero =>
      have hf2 : env.configureRv e ≠ 0 := hfail
      rw [configureLoop, if_pos hf2]
      rfl
    | succ k =>
      have h0 : env.configureRv e = 0 := hok 0 (Nat.succ_pos k)
      rw [configureLoop, if_neg (not_ne_iff.2 h0),
        ih k (Nat.lt_of_succ_lt_succ hk)
          (fun i hi => hok (i + 1) (Nat.succ_lt_succ hi)) hfail]
      rfl

/-- When the summary succeeds, the prompt is forced or accepted, the
hash check passes and the apply loop succeeds, `exec_transaction`
reaches the configure loop. -/
theorem exec_transaction_success_case (env : Env) (t : Transaction)
    (hs : (show_transaction_sizes env t.entries).1 = 0)
    (hc : t.force = true ∨ env.confirm = true)
    (hh : (check_pkg_hashes env t.entries).1 = 0)
    (ha : (applyLoop env t false t.entries).rv = 0) :
    exec_transaction env t =
      ⟨(configureLoop env (applyLoop env t false t.entries).entries).1,
        (applyLoop env t false t.entries).entries,
        Action.showSizes :: promptTrace t ++
          (check_pkg_hashes env t.entries).2 ++
          (applyLoop env t false t.entries).trace ++
          (configureLoop env (applyLoop env t false t.entries).entries).2⟩ := by
  unfold exec_transaction
  rw [if_neg (not_ne_iff.2 hs),
    if_neg (by rcases hc with h | h <;> simp [h]),
    if_neg (not_ne_iff.2 hh), if_neg (not_ne_iff.2 ha)]

/-- Claim C7: after a fully successful apply pass the transaction result
is that of the Configure Phase Driver, which runs one pass over the
complete entry sequence in the original order (the apply loop preserves
every name and version, and SKIPped entries stay in place); when every
configuration call succeeds each entry is configured once with its name
and version, and the first configuration failure aborts with that
return value, configuring only the entries up to and including the
failing one. -/
theorem C7_configure_driver (env : Env) (t : Transaction)
    (hs : (show_transaction_sizes env t.entries).1 = 0)
    (hc : t.force = true ∨ env.confirm = true)
    (hh : (check_pkg_hashes env t.entries).1 = 0)
    (ha : (applyLoop env t false t.entries).rv = 0) :
    (exec_transaction env t).rv =
      (configureLoop env (applyLoop env t false t.entries).entries).1 ∧
    (applyLoop env t false t.entries).entries.map
        (fun e => (e.pkgname, e.version)) =
      t.entries.map (fun e => (e.pkgname, e.version)) ∧
    ((∀ e ∈ (applyLoop env t false t.entries).entries,
        env.configureRv e = 0) →
      configureLoop env (applyLoop env t false t.entries).entries =
        (0, (applyLoop env t false t.entries).entries.map
          (fun e => Action.configurePkg e.pkgname e.version))) ∧
    (∀ (k : Nat) (hk : k < (applyLoop env t false t.entries).entries.length),
      (∀ i (hi : i < k),
        env.configureRv
          ((applyLoop env t false t.entries).entries.get
            ⟨i, lt_trans hi hk⟩) = 0) →
      env.configureRv
        ((applyLoop env t false t.entries).entries.get ⟨k, hk⟩) ≠ 0 →
      configureLoop env (applyLoop env t false t.entries).entries =
        (env.configureRv
          ((applyLoop env t false t.entries).entries.get ⟨k, hk⟩),
          ((applyLoop env t false t.entries).entries.take (k + 1)).map
            (fun e => Action.configurePkg e.pkgname e.version))) := by
  refine ⟨?_, applyLoop_entries_nv env t t.entries false, ?_, ?_⟩
  · rw [exec_transaction_success_case env t hs hc hh ha]
  · exact configureLoop_all_ok env (applyLoop env t false t.entries).entries
  · exact configureLoop_first_fail env (applyLoop env t false t.entries).entries

/-- Witness for C7: in a concrete all-success run the transaction
result is the configure-loop result, and the configure loop configures
every entry once, in order. -/
theorem C7_configure_driver_witness :
    (exec_transaction envAllOk transA).rv =
      (configureLoop envAllOk
        (applyLoop envAllOk transA false transA.entries).entries).1 ∧
    configureLoop envAllOk
        (applyLoop envAllOk transA false transA.entries).entries =
      (0, (applyLoop envAllOk transA false transA.entries).entries.map
        (fun e => Action.configurePkg e.pkgname e.version)) :=
  ⟨(C7_configure_driver envAllOk transA (by decide) (Or.inl rfl) (by decide)
      (by decide)).1,
    (C7_configure_driver envAllOk transA (by decide) (Or.inl rfl) (by decide)
      (by decide)).2.2.1 (by decide)⟩

theorem mark_unpacked_eq (e : PkgEntry) (h : e.unpacked = true) :
    { e with unpacked := true } = e := by
  cases e
  simp only at h
  rw [h]

theorem applyEntryTail_cases (env : Env) (e : PkgEntry) (isdep : Bool) :
    ((applyEntryTail env e isdep).rv = 0 ∧
      (applyEntryTail env e isdep).entry = { e with unpacked := true }) ∨
    ((applyEntryTail env e isdep).rv ≠ 0 ∧
      (applyEntryTail env e isdep).entry = e) := by
  unfold applyEntryTail
  split
  · exact Or.inr ⟨by assumption, rfl⟩
  · split
    · exact Or.inr ⟨by assumption, rfl⟩
    · split
      · exact Or.inr ⟨by assumption, rfl⟩
      · exact Or.inl ⟨rfl, rfl⟩

theorem applyEntry_cases (env : Env) (t : Transaction) (e : PkgEntry)
    (isdep : Bool) :
    ((applyEntry env t e isdep).rv = 0 ∧
      (applyEntry env t e isdep).entry = { e with unpacked := true }) ∨
    ((applyEntry env t e isdep).rv ≠ 0 ∧
      (applyEntry env t e isdep).entry = e) := by
  unfold applyEntry
  split
  · split
    · exact Or.inr ⟨show EINVAL ≠ 0 by decide, rfl⟩
    · split
      · split
        · exact Or.inr ⟨by assumption, rfl⟩
        · exact applyEntryTail_cases env e isdep
      · exact applyEntryTail_cases env e isdep
  · exact applyEntryTail_cases env e isdep

theorem applyLoop_cons_skip (env : Env) (t : Transaction) (isdep : Bool)
    (e : PkgEntry) (rest : List PkgEntry) (hu : e.unpacked = true) :
    applyLoop env t isdep (e :: rest) =
      ⟨(applyLoop env t (stepIsdep t e isdep) rest).rv,
        e :: (applyLoop env t (stepIsdep t e isdep) rest).entries,
        (applyLoop env t (stepIsdep t e isdep) rest).trace,
        (applyLoop env t (stepIsdep t e isdep) rest).isdep⟩ := by
  rw [applyLoop, if_pos hu]

theorem applyLoop_cons_fail (env : Env) (t : Transaction) (isdep : Bool)
    (e : PkgEntry) (rest : List PkgEntry) (hu : e.unpacked = false)
    (hr : (applyEntry env t e (stepIsdep t e isdep)).rv ≠ 0) :
    applyLoop env t isdep (e :: rest) =
      ⟨(applyEntry env t e (stepIsdep t e isdep)).rv,
        (applyEntry env t e (stepIsdep t e isdep)).entry :: rest,
        (applyEntry env t e (stepIsdep t e isdep)).trace,
        (applyEntry env t e (stepIsdep t e isdep)).isdep⟩ := by
  rw [applyLoop, if_neg (by simp [hu]), if_pos hr]

theorem applyLoop_cons_ok (env : Env) (t : Transaction) (isdep : Bool)
    (e : PkgEntry) (rest : List PkgEntry) (hu : e.unpacked = false)
    (hr : (applyEntry env t e (stepIsdep t e isdep)).rv = 0) :
    applyLoop env t isdep (e :: rest) =
      ⟨(applyLoop env t (applyEntry env t e (stepIsdep t e isdep)).isdep
          rest).rv,
        (applyEntry env t e (stepIsdep t e isdep)).entry ::
          (applyLoop env t (applyEntry env t e (stepIsdep t e isdep)).isdep
            rest).entries,
        (applyEntry env t e (stepIsdep t e isdep)).trace ++
          (applyLoop env t (applyEntry env t e (stepIsdep t e isdep)).isdep
            rest).trace,
        (applyLoop env t (applyEntry env t e (stepIsdep t e isdep)).isdep
          rest).isdep⟩ := by
  rw [applyLoop, if_neg (by simp [hu]), if_neg (not_ne_iff.2 hr)]

theorem applyLoop_fail_char (env : Env) (t : Transaction) :
    ∀ (es : List PkgEntry) (isdep : Bool),
      (applyLoop env t isdep es).rv ≠ 0 →
      ∃ k, k < es.length ∧
        (applyLoop env t isdep es).entries =
          (es.take k).map (fun e => { e with unpacked := true }) ++
            es.drop k ∧
        (applyLoop env t isdep es).rv =
          (applyLoop env t isdep (es.take (k + 1))).rv ∧
        (applyLoop env t isdep es).trace =
          (applyLoop env t isdep (es.take (k + 1))).trace := by
  intro es
  induction es with
  | nil => intro isdep h; exact absurd rfl h
  | cons e rest ih =>
    intro isdep h
    by_cases hu : e.unpacked = true
    · rw [applyLoop_cons_skip env t isdep e rest hu] at h
      rcases ih (stepIsdep t e isdep) h with ⟨k, hk, he, hrv, htr⟩
      refine ⟨k + 1, Nat.succ_lt_succ hk, ?_, ?_, ?_⟩
      · rw [applyLoop_cons_skip env t isdep e rest hu]
        show e :: _ = _
        rw [List.take_succ_cons, List.map_cons, mark_unpacked_eq e hu,
          List.drop_succ_cons, List.cons_append, he]
      · rw [applyLoop_cons_skip env t isdep e rest hu, List.take_succ_cons,
          applyLoop_cons_skip env t isdep e (rest.take (k + 1)) hu]
        exact hrv
      · rw [applyLoop_cons_skip env t isdep e rest hu, List.take_succ_cons,
          applyLoop_cons_skip env t isdep e (rest.take (k + 1)) hu]
        exact htr
    · have hu2 : e.unpacked = false := by
        cases h2 : e.unpacked
        · rfl
        · exact absurd h2 hu
      by_cases hr : (applyEntry env t e (stepIsdep t e isdep)).rv ≠ 0
      · refine ⟨0, Nat.succ_pos rest.length, ?_, ?_, ?_⟩
        · rw [applyLoop_cons_fail env t isdep e rest hu2 hr]
          show (applyEntry env t e (stepIsdep t e isdep)).entry :: rest = _
          rcases applyEntry_cases env t e (stepIsdep t e isdep) with
            ⟨h0, _⟩ | ⟨_, he⟩
          · exact absurd h0 hr
          · rw [he]; rfl
        · rw [applyLoop_cons_fail env t isdep e rest hu2 hr, List.take_succ_cons,
            List.take_zero,
            applyLoop_cons_fail env t isdep e ([] : List PkgEntry) hu2 hr]
        · rw [applyLoop_cons_fail env t isdep e rest hu2 hr, List.take_succ_cons,
            List.take_zero,
            applyLoop_cons_fail env t isdep e ([] : List PkgEntry) hu2 hr]
      · have hr2 : (applyEntry env t e (stepIsdep t e isdep)).rv = 0 :=
          not_ne_iff.1 hr
        rw [applyLoop_cons_ok env t isdep e rest hu2 hr2] at h
        rcases ih (applyEntry env t e (stepIsdep t e isdep)).isdep h with
          ⟨k, hk, he, hrv, htr⟩
        have hme : (applyEntry env t e (stepIsdep t e isdep)).entry =
            { e with unpacked := true } := by
          rcases applyEntry_cases env t e (stepIsdep t e isdep) with
            ⟨_, h2⟩ | ⟨h2, _⟩
          · exact h2
          · exact absurd hr2 h2
        refine ⟨k + 1, Nat.succ_lt_succ hk, ?_, ?_, ?_⟩
        · rw [applyLoop_cons_ok env t isdep e rest hu2 hr2]
          show (applyEntry env t e (stepIsdep t e isdep)).entry :: _ = _
          rw [List.take_succ_cons, List.map_cons, List.drop_succ_cons,
            List.cons_append, hme, he]
        · rw [applyLoop_cons_ok env t isdep e rest hu2 hr2, List.take_succ_cons,
            applyLoop_cons_ok env t isdep e (rest.take (k + 1)) hu2 hr2]
          exact hrv
        · rw [applyLoop_cons_ok env t isdep e rest hu2 hr2, List.take_succ_cons,
            applyLoop_cons_ok env t isdep e (rest.take (k + 1)) hu2 hr2]
          show _ ++ _ = _ ++ _
          rw [htr]

theorem isMutation_false_of_phase_ne (a : Action) (h : phase a ≠ 3) :
    isMutation a = false := by
  cases a <;> first | rfl | exact absurd rfl h

/-- Entry "b" used in failing-run witnesses. -/
def entB : PkgEntry := ⟨"b", "2.0", false, "b.xbps", 1, 2, false⟩

/-- Environment in which unpacking entry "b" fails with errno 5. -/
def envUnpackFailB : Env :=
  ⟨fun _ => HashResult.ok, fun _ => 0,
    fun e => if e.pkgname = "b" then 5 else 0, fun _ => 0, fun _ => 0,
    fun _ => 0, fun _ => some "0.9", fun _ => true, true⟩

/-- Two-entry forced transaction whose second entry fails to unpack. -/
def transAB : Transaction :=
  ⟨[entA, entB], "a", none, TransType.TRANS_ONE, true, false⟩

/-- Claim C3: if the apply pass fails, there is a position k (0-indexed;
entry K = k+1 of the claim) such that every earlier entry carries
lifecycle state UNPACKED after the pass, the failing entry and every
later entry are left exactly as they were before the pass (hence not
UNPACKED unless they already were), processing stops at the failing
entry (the result and trace equal those of the run over just the first
k+1 entries, so later entries are not attempted), and the Configure
Phase Driver is never invoked. -/
theorem C3_apply_fail_fast (env : Env) (t : Transaction)
    (h : (applyLoop env t false t.entries).rv ≠ 0) :
    (∃ k, k < t.entries.length ∧
      (applyLoop env t false t.entries).entries =
        (t.entries.take k).map (fun e => { e with unpacked := true }) ++
          t.entries.drop k ∧
      (applyLoop env t false t.entries).rv =
        (applyLoop env t false (t.entries.take (k + 1))).rv ∧
      (applyLoop env t false t.entries).trace =
        (applyLoop env t false (t.entries.take (k + 1))).trace) ∧
    ∀ n v, Action.configurePkg n v ∉ (exec_transaction env t).trace := by
  refine ⟨applyLoop_fail_char env t t.entries false h, ?_⟩
  intro n v hmem
  unfold exec_transaction at hmem
  split at hmem
  · simp at hmem
  · split at hmem
    · simp at hmem
    · split at hmem
      · rcases List.mem_cons.1 hmem with h2 | h2
        · simp at h2
        · rcases List.mem_append.1 h2 with h3 | h3
          · have h4 := promptTrace_phase t _ h3
            simp [phase] at h4
          · have h4 := check_pkg_hashes_trace_phase env t.entries _ h3
            simp [phase] at h4
      · rcases List.mem_cons.1 hmem with h2 | h2
        · simp at h2
        · rcases List.mem_append.1 h2 with h3 | h3
          · rcases List.mem_append.1 h3 with h4 | h4
            · have h5 := promptTrace_phase t _ h4
              simp [phase] at h5
            · have h5 := check_pkg_hashes_trace_phase env t.entries _ h4
              simp [phase] at h5
          · have h5 := applyLoop_trace_phase env t t.entries false _ h3
            simp [phase] at h5

/-- Witness for C3 at a concrete failing two-entry run. -/
theorem C3_apply_fail_fast_witness :
    (∃ k, k < transAB.entries.length ∧
      (applyLoop envUnpackFailB transAB false transAB.entries).entries =
        (transAB.entries.take k).map (fun e => { e with unpacked := true }) ++
          transAB.entries.drop k ∧
      (applyLoop envUnpackFailB transAB false transAB.entries).rv =
        (applyLoop envUnpackFailB transAB false
          (transAB.entries.take (k + 1))).rv ∧
      (applyLoop envUnpackFailB transAB false transAB.entries).trace =
        (applyLoop envUnpackFailB transAB false
          (transAB.entries.take (k + 1))).trace) ∧
    ∀ n v, Action.configurePkg n v ∉
      (exec_transaction envUnpackFailB transAB).trace :=
  C3_apply_fail_fast envUnpackFailB transAB (by decide)

theorem check_pkg_hashes_rv_cases (env : Env) :
    ∀ es : List PkgEntry, (check_pkg_hashes env es).1 = 0 ∨
      (check_pkg_hashes env es).1 = -1 := by
  intro es
  induction es with
  | nil => exact Or.inl rfl
  | cons e rest ih =>
    rw [check_pkg_hashes]
    split
    · exact ih
    · cases hh : env.hash e
      · exact ih
      · exact Or.inr rfl
      · exact Or.inr rfl

theorem check_pkg_hashes_ok_iff (env : Env) :
    ∀ es : List PkgEntry,
      ((check_pkg_hashes env es).1 = 0 ↔
        ∀ e ∈ es, e.unpacked = false → env.hash e = HashResult.ok) := by
  intro es
  induction es with
  | nil => simp [check_pkg_hashes]
  | cons e rest ih =>
    rw [check_pkg_hashes]
    by_cases hu : e.unpacked = true
    · rw [if_pos hu]
      constructor
      · intro h0 x hx hxu
        rcases List.mem_cons.1 hx with rfl | hx
        · rw [hu] at hxu; cases hxu
        · exact ih.1 h0 x hx hxu
      · intro hall
        exact ih.2 (fun x hx hxu => hall x (List.mem_cons_of_mem e hx) hxu)
    · have hu2 : e.unpacked = false := by
        cases h2 : e.unpacked
        · rfl
        · exact absurd h2 hu
      rw [if_neg hu]
      cases hh : env.hash e
      · constructor
        · intro h0 x hx hxu
          rcases List.mem_cons.1 hx with rfl | hx
          · exact hh
          · exact ih.1 h0 x hx hxu
        · intro hall
          exact ih.2 (fun x hx hxu => hall x (List.mem_cons_of_mem e hx) hxu)
      · constructor
        · intro h0
          have h1 : (-1 : Int) = 0 := h0
          exact absurd h1 (by decide)
        · intro hall
          have h1 := hall e (List.mem_cons_self e rest) hu2
          rw [hh] at h1
          cases h1
      · constructor
        · intro h0
          have h1 : (-1 : Int) = 0 := h0
          exact absurd h1 (by decide)
        · intro hall
          have h1 := hall e (List.mem_cons_self e rest) hu2
          rw [hh] at h1
          cases h1

theorem check_pkg_hashes_ok_trace (env : Env) :
    ∀ es : List PkgEntry, (check_pkg_hashes env es).1 = 0 →
      (check_pkg_hashes env es).2 =
        (es.filter (fun e => !e.unpacked)).map
          (fun e => Action.hashCheck e.pkgname) := by
  intro es
  induction es with
  | nil => intro h; rfl
  | cons e rest ih =>
    intro h
    rw [check_pkg_hashes] at h ⊢
    by_cases hu : e.unpacked = true
    · rw [if_pos hu] at h ⊢
      rw [List.filter_cons_of_neg (by simp [hu]), ih h]
    · have hu2 : e.unpacked = false := by
        cases h2 : e.unpacked
        · rfl
        · exact absurd h2 hu
      rw [if_neg hu] at h ⊢
      cases hh : env.hash e
      · rw [hh] at h
        rw [List.filter_cons_of_pos (by simp [hu2]), List.map_cons]
        show Action.hashCheck e.pkgname :: _ =
          Action.hashCheck e.pkgname :: _
        rw [ih h]
      · rw [hh] at h
        have h1 : (-1 : Int) = 0 := h
        exact absurd h1 (by decide)
      · rw [hh] at h
        have h1 : (-1 : Int) = 0 := h
        exact absurd h1 (by decide)

/-- Claim C4: the Integrity Gate checks exactly the entries whose
lifecycle state is not UNPACKED — it returns 0 exactly when every such
entry verifies ok, and then its trace is one hash check per
not-yet-unpacked entry in sequence order; if any such entry fails
verification (content mismatch or any other error), the gate returns -1
and the transaction performs no mutation: the entries are unchanged and
no remove, unpack, register or set-state call appears in the trace, so
no entry reaches the Apply Phase Driver. -/
theorem C4_integrity_gate (env : Env) (t : Transaction) :
    ((check_pkg_hashes env t.entries).1 = 0 ↔
      ∀ e ∈ t.entries, e.unpacked = false → env.hash e = HashResult.ok) ∧
    ((check_pkg_hashes env t.entries).1 = 0 →
      (check_pkg_hashes env t.entries).2 =
        (t.entries.filter (fun e => !e.unpacked)).map
          (fun e => Action.hashCheck e.pkgname)) ∧
    ((∃ e ∈ t.entries, e.unpacked = false ∧ env.hash e ≠ HashResult.ok) →
      (check_pkg_hashes env t.entries).1 = -1 ∧
      (exec_transaction env t).entries = t.entries ∧
      ∀ a ∈ (exec_transaction env t).trace, isMutation a = false) := by
  refine ⟨check_pkg_hashes_ok_iff env t.entries,
    check_pkg_hashes_ok_trace env t.entries, ?_⟩
  intro hbad
  have hne : (check_pkg_hashes env t.entries).1 ≠ 0 := by
    intro h0
    rcases hbad with ⟨e, he, hu, hh⟩
    exact hh ((check_pkg_hashes_ok_iff env t.entries).1 h0 e he hu)
  have hm1 : (check_pkg_hashes env t.entries).1 = -1 := by
    rcases check_pkg_hashes_rv_cases env t.entries with h0 | h0
    · exact absurd h0 hne
    · exact h0
  refine ⟨hm1, ?_, ?_⟩
  · unfold exec_transaction
    split
    · rfl
    · split
      · rfl
      · rfl
  · intro a ha
    unfold exec_transaction at ha
    split at ha
    · simp at ha; rw [ha]; rfl
    · split at ha
      · rcases List.mem_cons.1 ha with rfl | ha
        · rfl
        · rcases List.mem_cons.1 ha with rfl | ha
          · rfl
          · simp at ha
      · rcases List.mem_cons.1 ha with rfl | ha
        · rfl
        · rcases List.mem_append.1 ha with h2 | h2
          · exact isMutation_false_of_phase_ne a
              (by rw [promptTrace_phase t a h2]; omega)
          · exact isMutation_false_of_phase_ne a
              (by rw [check_pkg_hashes_trace_phase env t.entries a h2]; omega)

/-- Environment whose hash verification always reports a mismatch. -/
def envMismatch : Env :=
  ⟨fun _ => HashResult.mismatch, fun _ => 0, fun _ => 0, fun _ => 0,
    fun _ => 0, fun _ => 0, fun _ => some "0.9", fun _ => true, true⟩

/-- Witness for C4: on a concrete run the successful gate checks exactly
the not-yet-unpacked entries, and a mismatching gate returns -1 leaving
the entries unchanged. -/
theorem C4_integrity_gate_witness :
    ((check_pkg_hashes envAllOk transA.entries).2 =
      (transA.entries.filter (fun e => !e.unpacked)).map
        (fun e => Action.hashCheck e.pkgname)) ∧
    (check_pkg_hashes envMismatch transA.entries).1 = -1 ∧
    (exec_transaction envMismatch transA).entries = transA.entries :=
  ⟨(C4_integrity_gate envAllOk transA).2.1 (by decide),
    ((C4_integrity_gate envMismatch transA).2.2 (by decide)).1,
    ((C4_integrity_gate envMismatch transA).2.2 (by decide)).2.1⟩

theorem applyEntryTail_trace_head (env : Env) (e : PkgEntry) (isdep : Bool) :
    ∃ tl, (applyEntryTail env e isdep).trace =
      Action.unpackPkg e.pkgname e.essential :: tl := by
  unfold applyEntryTail
  split
  · exact ⟨[], rfl⟩
  · split
    · exact ⟨[Action.registerPkg e.pkgname isdep], rfl⟩
    · split
      · exact ⟨[Action.registerPkg e.pkgname isdep,
          Action.setUnpacked e.pkgname], rfl⟩
      · exact ⟨[Action.registerPkg e.pkgname isdep,
          Action.setUnpacked e.pkgname], rfl⟩

theorem applyEntryTail_no_remove (env : Env) (e : PkgEntry) (isdep : Bool) :
    ∀ n w b, Action.removePkg n w b ∉ (applyEntryTail env e isdep).trace := by
  intro n w b hmem
  unfold applyEntryTail at hmem
  split at hmem
  · simp at hmem
  · split at hmem
    · simp at hmem
    · split at hmem <;> simp at hmem

/-- Claim C5: for an entry that applies in the current pass (BULK mode,
or an update where the entry name equals the package currently being
updated) and whose installed record exists: a non-essential entry is
first removed with keep-config = true, and when the removal succeeds it
is unpacked immediately afterwards; an essential entry triggers no
removal call at all and is unpacked (with the essential flag set) over
the existing files. -/
theorem C5_disposition (env : Env) (t : Transaction) (e : PkgEntry)
    (isdep : Bool) (v : String)
    (happ : t.ttype = TransType.TRANS_ALL ∨
      (t.update = true ∧ t.curpkgname = some e.pkgname))
    (hinst : env.findInstalledVersion e.pkgname = some v) :
    (e.essential = false →
      (∃ tl, (applyEntry env t e isdep).trace =
        Action.removePkg e.pkgname e.version true :: tl) ∧
      (env.removeRv e = 0 →
        ∃ tl, (applyEntry env t e isdep).trace =
          Action.removePkg e.pkgname e.version true ::
            Action.unpackPkg e.pkgname e.essential :: tl)) ∧
    (e.essential = true →
      (∀ n w b, Action.removePkg n w b ∉ (applyEntry env t e isdep).trace) ∧
      ∃ tl, (applyEntry env t e isdep).trace =
        Action.unpackPkg e.pkgname true :: tl) := by
  unfold applyEntry
  rw [if_pos happ, hinst]
  constructor
  · intro hess
    rw [if_pos hess]
    by_cases hrm : env.removeRv e ≠ 0
    · rw [if_pos hrm]
      exact ⟨⟨[], rfl⟩, fun h0 => absurd h0 hrm⟩
    · have hrm0 : env.removeRv e = 0 := not_ne_iff.1 hrm
      rw [if_neg hrm]
      refine ⟨⟨(applyEntryTail env e isdep).trace, rfl⟩, fun _ => ?_⟩
      rcases applyEntryTail_trace_head env e isdep with ⟨tl, htl⟩
      exact ⟨tl, by rw [htl]⟩
  · intro hess
    rw [if_neg (by simp [hess])]
    refine ⟨applyEntryTail_no_remove env e isdep, ?_⟩
    rcases applyEntryTail_trace_head env e isdep with ⟨tl, htl⟩
    rw [hess] at htl
    exact ⟨tl, htl⟩

/-- An essential entry used in the overwrite-disposition witness. -/
def entC : PkgEntry := ⟨"c", "3.0", true, "c.xbps", 4, 8, false⟩

/-- Bulk-mode transaction over the two concrete entries. -/
def transBulk : Transaction :=
  ⟨[entA, entC], "a", none, TransType.TRANS_ALL, true, true⟩

/-- Witness for C5: in a bulk run, the non-essential entry is removed
(keep-config true) before unpacking, and the essential entry is never
removed. -/
theorem C5_disposition_witness :
    (∃ tl, (applyEntry envAllOk transBulk entA false).trace =
      Action.removePkg entA.pkgname entA.version true :: tl) ∧
    ∀ n w b, Action.removePkg n w b ∉
      (applyEntry envAllOk transBulk entC false).trace :=
  ⟨((C5_disposition envAllOk transBulk entA false "0.9" (Or.inl rfl)
      rfl).1 rfl).1,
    ((C5_disposition envAllOk transBulk entC false "0.9" (Or.inl rfl)
      rfl).2 rfl).1⟩

theorem applyEntryTail_register_mem (env : Env) (e : PkgEntry) (i : Bool)
    (n : String) (d : Bool)
    (h : Action.registerPkg n d ∈ (applyEntryTail env e i).trace) :
    n = e.pkgname ∧ d = i := by
  unfold applyEntryTail at h
  split at h
  · simp at h
  · split at h
    · simp at h
      exact h
    · split at h <;> simp at h <;> exact h

theorem applyEntry_register_mem (env : Env) (t : Transaction) (e : PkgEntry)
    (i : Bool) (n : String) (d : Bool)
    (h : Action.registerPkg n d ∈ (applyEntry env t e i).trace) :
    n = e.pkgname ∧ d = i := by
  unfold applyEntry at h
  split at h
  · split at h
    · simp at h
    · split at h
      · split at h
        · simp at h
        · rcases List.mem_cons.1 h with h2 | h2
          · simp at h2
          · exact applyEntryTail_register_mem env e i n d h2
      · exact applyEntryTail_register_mem env e i n d h
  · exact applyEntryTail_register_mem env e i n d h

theorem applyLoop_register_nonorigin_isdep (env : Env) (t : Transaction)
    (h1 : t.ttype = TransType.TRANS_ONE) :
    ∀ (es : List PkgEntry) (isdep : Bool) (n : String) (d : Bool),
      Action.registerPkg n d ∈ (applyLoop env t isdep es).trace →
      n ≠ t.originpkgname → d = true := by
  intro es
  induction es with
  | nil => intro isdep n d h; simp [applyLoop] at h
  | cons e rest ih =>
    intro isdep n d h hn
    rw [applyLoop] at h
    by_cases hu : e.unpacked = true
    · rw [if_pos hu] at h
      exact ih _ n d h hn
    · rw [if_neg hu] at h
      split at h
      · rcases applyEntry_register_mem env t e _ n d h with ⟨hne, hd⟩
        rw [hd]
        unfold stepIsdep
        rw [if_pos ⟨h1, fun hc => hn (hne.trans hc.symm)⟩]
      · rcases List.mem_append.1 h with h2 | h2
        · rcases applyEntry_register_mem env t e _ n d h2 with ⟨hne, hd⟩
          rw [hd]
          unfold stepIsdep
          rw [if_pos ⟨h1, fun hc => hn (hne.trans hc.symm)⟩]
        · exact ih _ n d h2 hn

theorem exec_register_mem_applyLoop (env : Env) (t : Transaction) (n : String)
    (d : Bool)
    (hmem : Action.registerPkg n d ∈ (exec_transaction env t).trace) :
    Action.registerPkg n d ∈ (applyLoop env t false t.entries).trace := by
  unfold exec_transaction at hmem
  split at hmem
  · simp at hmem
  · split at hmem
    · simp at hmem
    · split at hmem
      · rcases List.mem_cons.1 hmem with h2 | h2
        · simp at h2
        · rcases List.mem_append.1 h2 with h3 | h3
          · have h4 := promptTrace_phase t _ h3
            simp [phase] at h4
          · have h4 := check_pkg_hashes_trace_phase env t.entries _ h3
            simp [phase] at h4
      · split at hmem
        · rcases List.mem_cons.1 hmem with h2 | h2
          · simp at h2
          · rcases List.mem_append.1 h2 with h3 | h3
            · rcases List.mem_append.1 h3 with h4 | h4
              · have h5 := promptTrace_phase t _ h4
                simp [phase] at h5
              · have h5 := check_pkg_hashes_trace_phase env t.entries _ h4
                simp [phase] at h5
            · exact h3
        · rcases List.mem_cons.1 hmem with h2 | h2
          · simp at h2
          · rcases List.mem_append.1 h2 with h3 | h3
            · rcases List.mem_append.1 h3 with h4 | h4
              · rcases List.mem_append.1 h4 with h5 | h5
                · have h6 := promptTrace_phase t _ h5
                  simp [phase] at h6
                · have h6 := check_pkg_hashes_trace_phase env t.entries _ h5
                  simp [phase] at h6
              · exact h4
            · have h6 := configureLoop_trace_phase env _ _ h3
              simp [phase] at h6

/-- Origin entry used in the single-origin iteration examples. -/
def entO : PkgEntry := ⟨"o", "1.0", false, "o.xbps", 3, 6, false⟩

/-- First dependency entry. -/
def entD1 : PkgEntry := ⟨"d1", "1.1", false, "d1.xbps", 3, 6, false⟩

/-- Second dependency entry. -/
def entD2 : PkgEntry := ⟨"d2", "1.2", false, "d2.xbps", 3, 6, false⟩

/-- Forced single-origin transaction: origin first, then two
dependencies. -/
def transOrigin : Transaction :=
  ⟨[entO, entD1, entD2], "o", none, TransType.TRANS_ONE, true, false⟩

/-- Claim C2, as stated, is false on the code: in a single-origin run
over origin "o" followed by dependencies "d1" and "d2", the second
non-origin entry "d2" is also registered with is_dependency = true (and
never with false), whereas the claim says only the first non-origin
entry after the origin gets the flag and every other entry is
registered with is_dependency = false. -/
theorem C2_counterexample :
    Action.registerPkg "d2" true ∈
      (exec_transaction envAllOk transOrigin).trace ∧
    Action.registerPkg "d2" false ∉
      (exec_transaction envAllOk transOrigin).trace := by decide

/-- Claim C2 (amended): in SINGLE_ORIGIN mode every entry whose name
differs from origin_name that reaches registration is registered with
is_dependency = true — the check at the top of the loop body sets the
flag anew for each non-origin entry, so the reset after a registration
does not limit the flag to the first dependency. -/
theorem C2_isdep_nonorigin (env : Env) (t : Transaction)
    (h1 : t.ttype = TransType.TRANS_ONE) (n : String) (d : Bool)
    (hmem : Action.registerPkg n d ∈ (exec_transaction env t).trace)
    (hn : n ≠ t.originpkgname) : d = true :=
  applyLoop_register_nonorigin_isdep env t h1 t.entries false n d
    (exec_register_mem_applyLoop env t n d hmem) hn

/-- Witness for C2: the registration of "d2" observed in the concrete
single-origin run indeed carries is_dependency = true. -/
theorem C2_isdep_nonorigin_witness : true = true :=
  C2_isdep_nonorigin envAllOk transOrigin rfl "d2" true (by decide)
    (by decide)

/-- The pkgname and flag of the first registration call in a trace. -/
def firstRegisterFlag : List Action → Option (String × Bool)
  | [] => none
  | Action.registerPkg n d :: _ => some (n, d)
  | _ :: rest => firstRegisterFlag rest

theorem applyEntryTail_ok_firstRegister (env : Env) (e : PkgEntry) (i : Bool)
    (h : (applyEntryTail env e i).rv = 0) :
    firstRegisterFlag (applyEntryTail env e i).trace = some (e.pkgname, i) := by
  unfold applyEntryTail at h ⊢
  by_cases h1 : env.unpackRv e ≠ 0
  · rw [if_pos h1] at h
    exact absurd h h1
  · rw [if_neg h1] at h ⊢
    by_cases h2 : env.registerRv e ≠ 0
    · rw [if_pos h2] at h
      exact absurd h h2
    · rw [if_neg h2] at h ⊢
      by_cases h3 : env.setStateRv e ≠ 0
      · rw [if_pos h3] at h
        exact absurd h h3
      · rw [if_neg h3]
        rfl

theorem applyEntry_ok_firstRegister (env : Env) (t : Transaction)
    (e : PkgEntry) (i : Bool) (h : (applyEntry env t e i).rv = 0) :
    firstRegisterFlag (applyEntry env t e i).trace = some (e.pkgname, i) := by
  unfold applyEntry at h ⊢
  by_cases happ : t.ttype = TransType.TRANS_ALL ∨
      (t.update = true ∧ t.curpkgname = some e.pkgname)
  · rw [if_pos happ] at h ⊢
    cases hfind : env.findInstalledVersion e.pkgname
    · rw [hfind] at h
      have h1 : EINVAL = 0 := h
      exact absurd h1 (by decide)
    · rw [hfind] at h
      by_cases hess : e.essential = false
      · rw [if_pos hess] at h ⊢
        by_cases hrm : env.removeRv e ≠ 0
        · rw [if_pos hrm] at h
          exact absurd h hrm
        · rw [if_neg hrm] at h ⊢
          exact applyEntryTail_ok_firstRegister env e i h
      · rw [if_neg hess] at h ⊢
        exact applyEntryTail_ok_firstRegister env e i h
  · rw [if_neg happ] at h ⊢
    exact applyEntryTail_ok_firstRegister env e i h

theorem applyEntryTail_firstRegister (env : Env) (e : PkgEntry) (i : Bool) :
    firstRegisterFlag (applyEntryTail env e i).trace = none ∨
    firstRegisterFlag (applyEntryTail env e i).trace = some (e.pkgname, i) := by
  unfold applyEntryTail
  split
  · exact Or.inl rfl
  · split
    · exact Or.inr rfl
    · split
      · exact Or.inr rfl
      · exact Or.inr rfl

theorem applyEntry_firstRegister (env : Env) (t : Transaction) (e : PkgEntry)
    (i : Bool) :
    firstRegisterFlag (applyEntry env t e i).trace = none ∨
    firstRegisterFlag (applyEntry env t e i).trace = some (e.pkgname, i) := by
  unfold applyEntry
  split
  · split
    · exact Or.inl rfl
    · split
      · split
        · exact Or.inl rfl
        · exact applyEntryTail_firstRegister env e i
      · exact applyEntryTail_firstRegister env e i
  · exact applyEntryTail_firstRegister env e i

theorem firstRegisterFlag_append (l1 l2 : List Action) :
    firstRegisterFlag (l1 ++ l2) =
      (match firstRegisterFlag l1 with
        | some r => some r
        | none => firstRegisterFlag l2) := by
  induction l1 with
  | nil => rfl
  | cons a rest ih => cases a <;> simp [firstRegisterFlag, ih]

theorem applyLoop_firstRegister_true (env : Env) (t : Transaction) :
    ∀ (es : List PkgEntry) (n : String) (d : Bool),
      firstRegisterFlag (applyLoop env t true es).trace = some (n, d) →
      d = true := by
  intro es
  induction es with
  | nil =>
    intro n d h
    simp [applyLoop, firstRegisterFlag] at h
  | cons e rest ih =>
    intro n d h
    have hstep : stepIsdep t e true = true := by
      unfold stepIsdep
      split <;> rfl
    by_cases hu : e.unpacked = true
    · rw [applyLoop_cons_skip env t true e rest hu, hstep] at h
      exact ih n d h
    · have hu2 : e.unpacked = false := by
        cases h2 : e.unpacked
        · rfl
        · exact absurd h2 hu
      by_cases hr : (applyEntry env t e (stepIsdep t e true)).rv ≠ 0
      · rw [applyLoop_cons_fail env t true e rest hu2 hr] at h
        rcases applyEntry_firstRegister env t e (stepIsdep t e true) with
          h2 | h2
        · rw [h2] at h
          cases h
        · rw [h2, hstep] at h
          simp at h
          exact h.2
      · have hr0 : (applyEntry env t e (stepIsdep t e true)).rv = 0 :=
          not_ne_iff.1 hr
        rw [applyLoop_cons_ok env t true e rest hu2 hr0] at h
        have h2 := applyEntry_ok_firstRegister env t e (stepIsdep t e true) hr0
        dsimp only at h
        rw [firstRegisterFlag_append, h2, hstep] at h
        simp at h
        exact h.2

/-- Claim C9: in SINGLE_ORIGIN mode, when a non-origin entry is skipped
because it is already UNPACKED, the is-dependency flag it set stays
true: the loop continues over the remaining entries with the flag set,
and the next entry that reaches registration — whatever its name,
including the origin package itself — is registered with
is_dependency = true, because the flag is only cleared after a
successful registration. -/
theorem C9_flag_leak (env : Env) (t : Transaction) (isdep : Bool)
    (e : PkgEntry) (rest : List PkgEntry)
    (h1 : t.ttype = TransType.TRANS_ONE)
    (hno : t.originpkgname ≠ e.pkgname)
    (hu : e.unpacked = true) :
    (applyLoop env t isdep (e :: rest)).trace =
      (applyLoop env t true rest).trace ∧
    ∀ n d, firstRegisterFlag (applyLoop env t true rest).trace =
      some (n, d) → d = true := by
  constructor
  · rw [applyLoop_cons_skip env t isdep e rest hu]
    show (applyLoop env t (stepIsdep t e isdep) rest).trace = _
    rw [show stepIsdep t e isdep = true from by
      unfold stepIsdep
      rw [if_pos ⟨h1, hno⟩]]
  · exact fun n d h => applyLoop_firstRegister_true env t rest n d h

/-- A dependency entry already in UNPACKED state. -/
def entD1u : PkgEntry := ⟨"d1", "1.1", false, "d1.xbps", 3, 6, true⟩

/-- Single-origin transaction whose skipped dependency precedes the
origin. -/
def transLeak : Transaction :=
  ⟨[entD1u, entO], "o", none, TransType.TRANS_ONE, true, false⟩

/-- Witness for C9: skipping the already-unpacked dependency "d1" makes
the following registration — here of the origin "o" itself — carry
is_dependency = true. -/
theorem C9_flag_leak_witness :
    (applyLoop envAllOk transLeak false (entD1u :: [entO])).trace =
      (applyLoop envAllOk transLeak true [entO]).trace ∧
    ∀ n d, firstRegisterFlag
      (applyLoop envAllOk transLeak true [entO]).trace = some (n, d) →
      d = true :=
  C9_flag_leak envAllOk transLeak false entD1u [entO] rfl (by decide) rfl

/-- Orchestrator environment in which no package is installed. -/
def oeNotInstalled : OrchEnv :=
  ⟨envAllOk, fun _ => none, 1, 0, none⟩

/-- Claim C6, as stated, is false on the code: requesting an update of a
package that is not installed makes `xbps_install_pkg` print the
message and call `cleanup` with the still-zero `rv`, so the process
exits with status 0 (success), not with a non-zero status. -/
theorem C6_counterexample :
    (xbps_install_pkg oeNotInstalled "foo" false true).exit_status = 0 ∧
    (xbps_install_pkg oeNotInstalled "foo" false true).trace = [] := by
  decide

/-- Claim C6 (amended): when a targeted update is requested for a
package name that is not installed, the transaction fails early before
any mutation (no engine call is issued), but the process exits with
success status 0, because cleanup receives the still-zero rv. -/
theorem C6_update_not_installed (oe : OrchEnv) (pkg : String) (force : Bool)
    (h : oe.installedVersion pkg = none) :
    xbps_install_pkg oe pkg force true = ⟨0, []⟩ := by
  unfold xbps_install_pkg
  rw [h]
  rfl

/-- Witness for C6 at the concrete no-package environment. -/
theorem C6_update_not_installed_witness :
    xbps_install_pkg oeNotInstalled "foo" false true = ⟨0, []⟩ :=
  C6_update_not_installed oeNotInstalled "foo" false rfl

/-- Environment that answers the interactive prompt with no. -/
def envDecline : Env :=
  ⟨fun _ => HashResult.ok, fun _ => 0, fun _ => 0, fun _ => 0, fun _ => 0,
    fun _ => 0, fun _ => some "0.9", fun _ => true, false⟩

/-- The one-entry transaction with force unset. -/
def transAnoforce : Transaction :=
  ⟨[entA], "a", none, TransType.TRANS_ONE, false, false⟩

/-- Claim C10: when force is unset and the prompt is declined,
`exec_transaction` returns 0 right after the summary and the declined
prompt: the trace holds no hash check and no mutation, the entries are
unchanged, and cleanup maps the zero return to exit status 0. -/
theorem C10_declined_prompt (env : Env) (t : Transaction)
    (hf : t.force = false) (hc : env.confirm = false)
    (hs : (show_transaction_sizes env t.entries).1 = 0) :
    exec_transaction env t =
      ⟨0, t.entries, [Action.showSizes, Action.prompt false]⟩ ∧
    cleanup_status (exec_transaction env t).rv = 0 := by
  have he : exec_transaction env t =
      ⟨0, t.entries, [Action.showSizes, Action.prompt false]⟩ := by
    unfold exec_transaction
    rw [if_neg (not_ne_iff.2 hs), if_pos ⟨hf, hc⟩]
  refine ⟨he, ?_⟩
  rw [he]
  rfl


/-- Witness for C10 at a concrete declined run. -/
theorem C10_declined_prompt_witness :
    exec_transaction envDecline transAnoforce =
      ⟨0, transAnoforce.entries, [Action.showSizes, Action.prompt false]⟩ ∧
    cleanup_status (exec_transaction envDecline transAnoforce).rv = 0 :=
  C10_declined_prompt envDecline transAnoforce rfl rfl (by decide)

end Xbps
